import Mathlib

/-!
Shallow embedding of the menu-log subsystem of `streamlit_app.py`
(golan-menu-planner): ID assignment (`next_menu_id_local`,
`next_menu_id_gsheets`, `next_menu_id`), the two append backends
(`append_menu_to_local_csv`, `append_menu_to_gsheets`), preview building
(`build_preview`) and the save action (`save_menu`).

Modelling conventions:
* pandas/gspread I/O is made explicit: the local CSV file is a
  `LocalLogState` (absent / unreadable / parsed table), the remote
  worksheet content is an `Option (List RemoteRecord)`, and the possible
  runtime failures of each remote call are an explicit outcome value.
* Python exceptions become explicit branches, so every embedded function
  is total: "never raises" is totality of the Lean function.
* Machine integers: Python ints are unbounded, so `Int` is exact.
-/

namespace GolanMenu

/-- One row of the menu log, as written by the program
(`row = {"id": ..., "dishes": ..., "at_date": ...}`, lines 277-281). -/
structure Entry where
  id : Int
  dishes : String
  at_date : String
  deriving DecidableEq

/-- A spreadsheet cell as returned by `ws.get_all_records()`:
numeric cells arrive as Python ints, text cells as strings. -/
inductive Cell where
  | int (n : Int)
  | str (s : String)
  deriving DecidableEq

/-- One record from `get_all_records()`: a dict; `v.get("id", ...)` is
`none` when the `id` key is missing. -/
structure RemoteRecord where
  id : Option Cell
  deriving DecidableEq

/-- Value of a decimal digit character, `none` otherwise. -/
def digitVal? (c : Char) : Option Nat :=
  if '0' ≤ c ∧ c ≤ '9' then some (c.toNat - '0'.toNat) else none

/-- Accumulator loop reading decimal digits left to right. -/
def natOfDigitsAux : List Char → Nat → Option Nat
  | [], acc => some acc
  | c :: cs, acc =>
    match digitVal? c with
    | some d => natOfDigitsAux cs (acc * 10 + d)
    | none => none

/-- The natural number denoted by a nonempty all-digit character list
(Python `str.isdigit()` + `int`), `none` otherwise. -/
def decNat? : List Char → Option Nat
  | [] => none
  | c :: cs => natOfDigitsAux (c :: cs) 0

/-- Python `int(s)` on a string, restricted to an optional minus sign
followed by decimal digits (surrounding whitespace, `+` signs and digit
underscores are not modelled; no value in this development uses them).
`none` models `int(s)` raising `ValueError`. -/
def pyIntOfChars : List Char → Option Int
  | [] => none
  | c :: cs =>
    if c = '-' then (decNat? cs).map (fun n => -(Int.ofNat n))
    else (decNat? (c :: cs)).map Int.ofNat

/-- Python `int` applied to the characters of a string. -/
def pyIntOfString (s : String) : Option Int :=
  pyIntOfChars s.data

/-- Code-point lexicographic order on strings (Python string `<=`). -/
def charListLe : List Char → List Char → Bool
  | [], _ => true
  | _ :: _, [] => false
  | a :: as, b :: bs => if a < b then true else if b < a then false else charListLe as bs

/-- Python `max` of two strings. -/
def strMax (a b : String) : String :=
  if charListLe a.data b.data then b else a

/-- The `id` column of the dataframe `pd.read_csv(LOCAL_MENU_LOG)`.
`pd.read_csv` parses a column either wholly as numbers (`numeric`) or,
as soon as one cell is not numeric, keeps every cell as a string
(`object` dtype).  `idAbsent n` is a frame of `n` rows without an `id`
column. -/
inductive IdColumn where
  | idAbsent (nrows : Nat)
  | numeric (vals : List Int)
  | object (vals : List String)
  deriving DecidableEq

/-- State of the local log file `data/menus.csv` as seen by
`os.path.exists` + `pd.read_csv`: absent, unreadable (`read_csv`
raises), or parsed into a table described by its `id` column. -/
inductive LocalLogState where
  | noFile
  | unreadable
  | table (col : IdColumn)
  deriving DecidableEq

/-- `next_menu_id_local()` (lines 158-167).
`df["id"].max()` on a numeric column is the numeric maximum; on an
`object` column it is the lexicographically greatest string, and
`int(...)` on it either parses or raises (caught, returning 1). -/
def next_menu_id_local : LocalLogState → Int
  | .noFile => 1
  | .unreadable => 1
  | .table (.idAbsent _) => 1
  | .table (.numeric []) => 1
  | .table (.numeric (v :: vs)) => vs.foldl max v + 1
  | .table (.object []) => 1
  | .table (.object (v :: vs)) =>
    match pyIntOfString (vs.foldl strMax v) with
    | some m => m + 1
    | none => 1

/-- Outcome of the remote fetch performed by `next_menu_id_gsheets()`:
everything up to `open_by_key` succeeds or raises (`clientError`), and
`get_all_records()` succeeds or raises (`recordsError`). -/
inductive FetchOutcome where
  | ok
  | clientError
  | recordsError
  deriving DecidableEq

/-- The filter/map of line 183: keep `int(v.get("id", 0))` for the
records `v` with `str(v.get("id", "")).isdigit()`.  `str(n)` of an int
is all digits iff `n ≥ 0`; a missing key gives `""`, not a digit
string. -/
def keepDigitId (r : RemoteRecord) : Option Int :=
  match r.id with
  | none => none
  | some (.int n) => if 0 ≤ n then some n else none
  | some (.str s) => (decNat? s.data).map Int.ofNat

/-- `max([...] or [0])` of line 183: maximum of the kept ids, `0` when
none qualifies. -/
def maxDigitId (recs : List RemoteRecord) : Int :=
  match recs.filterMap keepDigitId with
  | [] => 0
  | k :: ks => ks.foldl max k

/-- `next_menu_id_gsheets()` (lines 169-187).  `ws` is the actual
worksheet content (`none` = worksheet absent, so `sh.worksheet` raises
and the inner `except` returns 1).  A `clientError` anywhere before the
worksheet lookup, or a `recordsError` in `get_all_records()` (reached
only when the worksheet exists), is caught by the outer `except`, which
falls back to `next_menu_id_local()`. -/
def next_menu_id_gsheets (ws : Option (List RemoteRecord)) (f : FetchOutcome)
    (l : LocalLogState) : Int :=
  match f with
  | .clientError => next_menu_id_local l
  | .ok =>
    match ws with
    | none => 1
    | some recs => if recs.isEmpty then 1 else maxDigitId recs + 1
  | .recordsError =>
    match ws with
    | none => 1
    | some _ => next_menu_id_local l

/-- `next_menu_id()` (lines 189-190); `g` is `gsheets_enabled()`. -/
def next_menu_id (g : Bool) (ws : Option (List RemoteRecord)) (f : FetchOutcome)
    (l : LocalLogState) : Int :=
  if g then next_menu_id_gsheets ws f l else next_menu_id_local l

/-- The integer ids present in a remote record: an int cell, or a text
cell that denotes an integer. -/
def recIdValue (r : RemoteRecord) : Option Int :=
  match r.id with
  | none => none
  | some (.int n) => some n
  | some (.str s) => pyIntOfString s

/-- The integer ids present in the local log (the cells of the `id`
column that denote integers). -/
def idsPresentLocal : LocalLogState → List Int
  | .table (.numeric vals) => vals
  | .table (.object vals) => vals.filterMap pyIntOfString
  | _ => []

/-- The integer ids present in the log of the configured target backend
(remote worksheet when `g`, local file otherwise). -/
def idsPresent (g : Bool) (ws : Option (List RemoteRecord))
    (l : LocalLogState) : List Int :=
  if g then (ws.getD []).filterMap recIdValue else idsPresentLocal l

/-! ### The local file as written by this program

Every local write goes through `append_menu_to_local_csv`, whose rows
are `Entry` values; a program-written file is `some rows` (header plus
`rows`), or `none` when absent. -/

/-- `append_menu_to_local_csv(row)` (lines 149-156): create the file
with the single row, or read all rows, concat the new one at the end
and rewrite the file in full. -/
def append_menu_to_local_csv : Option (List Entry) → Entry → Option (List Entry)
  | none, row => some [row]
  | some rows, row => some (rows ++ [row])

/-- How `pd.read_csv` sees a program-written file: absent, or a table
whose `id` column holds the written integer ids (hence numeric dtype). -/
def fileToState : Option (List Entry) → LocalLogState
  | none => .noFile
  | some rows => .table (.numeric (rows.map Entry.id))

/-- How `get_all_records()` sees a program-written worksheet: each
appended row has its integer id in the `id` field. -/
def recordsOf (ws : Option (List Entry)) : Option (List RemoteRecord) :=
  ws.map (List.map (fun e => ⟨some (.int e.id)⟩))

/-! ### Remote append -/

/-- Which of the remote calls made by `append_menu_to_gsheets` succeed:
client construction / `open_by_key`, worksheet creation (`add_worksheet`
+ header update, only reached when the worksheet is absent), and
`append_row`. -/
structure RemoteEff where
  clientOk : Bool
  createOk : Bool
  appendOk : Bool
  deriving DecidableEq

/-- The cause carried by a failed store write. -/
inductive StoreError where
  | clientFailure
  | createFailure
  | appendFailure
  deriving DecidableEq

/-- `append_menu_to_gsheets(row)` (lines 131-147).  Returns the raised
error (if any) together with the worksheet content after the call: a
raise leaves the mutations already performed in place (creating the
worksheet and then failing `append_row` leaves an empty worksheet). -/
def append_menu_to_gsheets (eff : RemoteEff) (ws : Option (List Entry))
    (row : Entry) : Option StoreError × Option (List Entry) :=
  if eff.clientOk = false then (some .clientFailure, ws)
  else
    match ws with
    | none =>
      if eff.createOk = false then (some .createFailure, none)
      else if eff.appendOk = false then (some .appendFailure, some [])
      else (none, some [row])
    | some rows =>
      if eff.appendOk = false then (some .appendFailure, some rows)
      else (none, some (rows ++ [row]))

/-! ### Preview building -/

/-- One row of `st.session_state.preview` (line 235). -/
structure PrevRow where
  num : Nat
  name : String
  notes : String
  deriving DecidableEq

/-- One catalog row, restricted to the fields `build_preview` reads;
`notes = none` models a NaN cell (`pd.notna` false). -/
structure CatRow where
  dish_name_hebrew : String
  notes : Option String
  deriving DecidableEq

/-- `GROUP_KEYS_ORDER` (lines 22-26): the fixed category display
order. -/
def GROUP_KEYS_ORDER : List String :=
  ["grains_and_pasta", "baked_vegetables", "potato_dishes",
   "fish_dishes", "chicken_dishes", "meat_dishes",
   "fried_snacks", "stuffed_vegetables", "soups"]

/-- Notes lookup of lines 229-234: first catalog row whose
`dish_name_hebrew` equals the chosen name; empty string when the
catalog is empty, no row matches, or the notes cell is NaN. -/
def lookupNotes (cat : String → List CatRow) (key chosen : String) : String :=
  match (cat key).find? (fun r => r.dish_name_hebrew == chosen) with
  | some r => r.notes.getD ""
  | none => ""

/-- Loop body of `build_preview` (lines 224-236): walk the categories in
`GROUP_KEYS_ORDER`; `if chosen and chosen != "-"` skips the empty string
(falsy) and the sentinel `"-"`; the counter advances only on emitted
rows. -/
def buildRows (choices : String → String) (cat : String → List CatRow) :
    List String → Nat → List PrevRow
  | [], _ => []
  | k :: ks, c =>
    let chosen := choices k
    if chosen ≠ "" ∧ chosen ≠ "-" then
      ⟨c, chosen, lookupNotes cat k chosen⟩ :: buildRows choices cat ks (c + 1)
    else
      buildRows choices cat ks c

/-- `build_preview()` (lines 223-238); `choices k` is
`st.session_state.get(f"sel_{k}", "-")`. -/
def build_preview (choices : String → String) (cat : String → List CatRow) :
    List PrevRow :=
  buildRows choices cat GROUP_KEYS_ORDER 1

/-! ### Save action -/

/-- The user-visible status message emitted by `save_menu` (warning /
success / error with the underlying cause). -/
inductive UserMsg where
  | warning
  | savedRemote (id : Int)
  | savedLocal (id : Int)
  | errorMsg (e : StoreError)
  deriving DecidableEq

/-- A call into a storage backend (`remote = true` for Google Sheets):
the id read performed by `next_menu_id` and the row write performed by
the append. -/
inductive BackendCall where
  | readId (remote : Bool)
  | writeRow (remote : Bool)
  deriving DecidableEq

/-- The persistent stores: the local log file and the remote
worksheet. -/
structure St where
  localLog : Option (List Entry)
  remoteWs : Option (List Entry)
  deriving DecidableEq

/-- `", ".join([str(x) for x in preview["..."]])` of lines 276-279. -/
def menuDishes (p : List PrevRow) : String :=
  ", ".intercalate (p.map PrevRow.name)

/-- The row built by `save_menu` (lines 277-281): fresh id from
`next_menu_id()`, joined dish names, timestamp `now`. -/
def savedRow (g : Bool) (p : List PrevRow) (now : String) (f : FetchOutcome)
    (st : St) : Entry :=
  { id := next_menu_id g (recordsOf st.remoteWs) f (fileToState st.localLog)
    dishes := menuDishes p
    at_date := now }

/-- `save_menu()` (lines 271-291): empty preview is rejected with a
warning before any backend call; otherwise build the row and append to
the configured backend, turning a raised `StoreError` into an error
message (`st.error`) — the other backend is never touched. -/
def save_menu (g : Bool) (p : List PrevRow) (now : String) (f : FetchOutcome)
    (eff : RemoteEff) (st : St) : St × UserMsg × List BackendCall :=
  if p.isEmpty then (st, .warning, [])
  else
    let row := savedRow g p now f st
    if g then
      match append_menu_to_gsheets eff st.remoteWs row with
      | (some e, ws2) =>
        ({ st with remoteWs := ws2 }, .errorMsg e, [.readId true, .writeRow true])
      | (none, ws2) =>
        ({ st with remoteWs := ws2 }, .savedRemote row.id,
          [.readId true, .writeRow true])
    else
      ({ st with localLog := append_menu_to_local_csv st.localLog row },
        .savedLocal row.id, [.readId false, .writeRow false])

/-! ### CSV text layer

`pd.DataFrame(...).to_csv(path, index=False)` writes a header line
`id,dishes,at_date` and one line per row; a field containing a comma,
quote or newline is double-quoted with inner quotes doubled
(QUOTE_MINIMAL).  `pd.read_csv` parses that text back.  The parser
below handles this quoting discipline (quoted fields without embedded
newlines, which this log never produces). -/

/-- Does `to_csv` need to quote this field? -/
def needsQuote (s : String) : Bool :=
  s.data.any (fun c => c = ',' ∨ c = '"' ∨ c = '\n')

/-- Double every quote character (CSV escaping). -/
def escapeChars : List Char → List Char
  | [] => []
  | c :: cs => if c = '"' then '"' :: '"' :: escapeChars cs else c :: escapeChars cs

/-- One serialized CSV field. -/
def csvField (s : String) : String :=
  if needsQuote s then "\"" ++ String.mk (escapeChars s.data) ++ "\"" else s

/-- One serialized log line. -/
def renderEntry (e : Entry) : String :=
  csvField (toString e.id) ++ "," ++ csvField e.dishes ++ "," ++ csvField e.at_date

/-- The full text written to `data/menus.csv` (`none` = file absent). -/
def renderLog : Option (List Entry) → Option String
  | none => none
  | some rows =>
    some ("id,dishes,at_date\n" ++ String.join (rows.map (fun e => renderEntry e ++ "\n")))

/-- Split into lines at newline characters. -/
def splitLines : List Char → List Char → List (List Char)
  | [], cur => [cur.reverse]
  | c :: cs, cur =>
    if c = '\n' then cur.reverse :: splitLines cs [] else splitLines cs (c :: cur)

/-- Field scanner for one CSV line: `inQ` says whether we are inside a
quoted field, `cur` is the current field reversed, `acc` the fields so
far; `none` on an unterminated quote (or fuel exhaustion, which a fuel
of one per character rules out). -/
def csvCells (fuel : Nat) (cs : List Char) (inQ : Bool) (cur : List Char)
    (acc : List String) : Option (List String) :=
  match fuel with
  | 0 => none
  | fuel + 1 =>
    match cs, inQ with
    | [], false => some (acc ++ [String.mk cur.reverse])
    | [], true => none
    | c :: rest, false =>
      if c = ',' then csvCells fuel rest false [] (acc ++ [String.mk cur.reverse])
      else if c = '"' then csvCells fuel rest true cur acc
      else csvCells fuel rest false (c :: cur) acc
    | c :: rest, true =>
      match rest with
      | '"' :: rest2 =>
        if c = '"' then csvCells fuel rest2 true ('"' :: cur) acc
        else csvCells fuel rest true (c :: cur) acc
      | _ =>
        if c = '"' then csvCells fuel rest false cur acc
        else csvCells fuel rest true (c :: cur) acc

/-- Parse one CSV line into its fields. -/
def parseLine (cs : List Char) : Option (List String) :=
  csvCells (cs.length + 1) cs false [] []

/-- Parse a CSV file into its lines of fields (ignoring the final
newline-terminated empty line, as `pd.read_csv` does). -/
def parseCsv (s : String) : Option (List (List String)) :=
  let ls := splitLines s.data []
  let ls := if ls.getLast? = some [] then ls.dropLast else ls
  ls.mapM parseLine

/-- Read the local log file back: serialize to CSV text, then parse the
text. -/
def readLogBack (file : Option (List Entry)) : Option (List (List String)) :=
  (renderLog file).bind parseCsv

/-- Decode one parsed data row back into an `Entry`. -/
def decodeRow : List String → Option Entry
  | [i, d, t] => (pyIntOfString i).map (fun n => ⟨n, d, t⟩)
  | _ => none

/-- Does the `id` column parse wholly as numbers?  (True also when the
file or the column is absent, where no id is recorded.) -/
def localIdColumnNumeric : LocalLogState → Bool
  | .table (.object _) => false
  | _ => true

/-- Did `next_menu_id_gsheets` fail to contact the remote backend?
`clientError` is any failure before the worksheet lookup;
`recordsError` is a failure in `get_all_records()`, which is reached
only when the worksheet exists. -/
def remoteContactFails (ws : Option (List RemoteRecord)) : FetchOutcome → Prop
  | .clientError => True
  | .recordsError => ws ≠ none
  | .ok => False

/-! ### Helper lemmas -/

theorem le_foldl_max_init (ks : List Int) (k : Int) : k ≤ ks.foldl max k := by
  induction ks generalizing k with
  | nil => exact le_refl k
  | cons a as ih => exact le_trans (le_max_left k a) (ih (max k a))

theorem le_foldl_max_of_mem {x : Int} (ks : List Int) (k : Int) (hx : x ∈ ks) :
    x ≤ ks.foldl max k := by
  induction ks generalizing k with
  | nil => cases hx
  | cons a as ih =>
    rcases List.mem_cons.mp hx with h | h
    · subst h
      exact le_trans (le_max_right k x) (le_foldl_max_init as (max k x))
    · exact ih (max k a) h

theorem foldl_max_mem (ks : List Int) (k : Int) : ks.foldl max k ∈ k :: ks := by
  induction ks generalizing k with
  | nil => exact List.mem_cons_self _ _
  | cons a as ih =>
    have h := ih (max k a)
    rw [List.foldl_cons]
    rcases List.mem_cons.mp h with h2 | h2
    · rcases max_choice k a with hm | hm <;> rw [h2, hm]
      · exact List.mem_cons_self _ _
      · exact List.mem_cons_of_mem _ (List.mem_cons_self _ _)
    · exact List.mem_cons_of_mem _ (List.mem_cons_of_mem _ h2)

/-- On a nonempty numeric `id` column whose maximum is `m`,
`next_menu_id_local` returns `m + 1`. -/
theorem next_local_numeric_max (v : Int) (vs : List Int) (m : Int)
    (hm : m ∈ v :: vs) (hb : ∀ x ∈ v :: vs, x ≤ m) :
    next_menu_id_local (.table (.numeric (v :: vs))) = m + 1 := by
  have h1 : vs.foldl max v ≤ m := hb _ (foldl_max_mem vs v)
  have h2 : m ≤ vs.foldl max v := by
    rcases List.mem_cons.mp hm with h | h
    · subst h; exact le_foldl_max_init vs m
    · exact le_foldl_max_of_mem vs v h
  show vs.foldl max v + 1 = m + 1
  rw [le_antisymm h1 h2]

theorem keepDigitId_nonneg {r : RemoteRecord} {i : Int}
    (h : keepDigitId r = some i) : 0 ≤ i := by
  rcases r with ⟨rid⟩
  rcases rid with _ | c
  · simp [keepDigitId] at h
  · rcases c with n | s
    · by_cases hn : 0 ≤ n
      · simp [keepDigitId, hn] at h; omega
      · simp [keepDigitId, hn] at h
    · simp only [keepDigitId, Option.map_eq_some'] at h
      rcases h with ⟨n, -, rfl⟩
      exact Int.natCast_nonneg n

theorem recIdValue_le_zero_or_kept {r : RemoteRecord} {i : Int}
    (h : recIdValue r = some i) : i ≤ 0 ∨ keepDigitId r = some i := by
  rcases r with ⟨rid⟩
  rcases rid with _ | c
  · simp [recIdValue] at h
  · rcases c with n | s
    · simp only [recIdValue, Option.some_inj] at h
      subst h
      by_cases hn : 0 ≤ n
      · exact Or.inr (by simp [keepDigitId, hn])
      · exact Or.inl (by omega)
    · simp only [recIdValue, pyIntOfString] at h
      rcases hs : s.data with _ | ⟨c0, cs⟩
      · rw [hs] at h; simp [pyIntOfChars] at h
      · rw [hs] at h
        simp only [pyIntOfChars] at h
        by_cases hc : c0 = '-'
        · rw [if_pos hc] at h
          simp only [Option.map_eq_some'] at h
          rcases h with ⟨n, -, rfl⟩
          exact Or.inl (neg_nonpos.mpr (Int.natCast_nonneg n))
        · rw [if_neg hc] at h
          refine Or.inr ?_
          simp only [keepDigitId, hs]
          exact h

theorem mem_kept_le_maxDigitId {recs : List RemoteRecord} {i : Int}
    (h : i ∈ recs.filterMap keepDigitId) : i ≤ maxDigitId recs := by
  unfold maxDigitId
  rcases hk : recs.filterMap keepDigitId with _ | ⟨k, ks⟩
  · rw [hk] at h; cases h
  · rw [hk] at h
    rcases List.mem_cons.mp h with h2 | h2
    · subst h2; exact le_foldl_max_init ks i
    · exact le_foldl_max_of_mem ks k h2

theorem maxDigitId_nonneg (recs : List RemoteRecord) : 0 ≤ maxDigitId recs := by
  unfold maxDigitId
  rcases hk : recs.filterMap keepDigitId with _ | ⟨k, ks⟩
  · exact le_refl 0
  · have hkm : k ∈ recs.filterMap keepDigitId := by
      rw [hk]; exact List.mem_cons_self _ _
    obtain ⟨r, _, hr⟩ := List.mem_filterMap.mp hkm
    exact le_trans (keepDigitId_nonneg hr) (le_foldl_max_init ks k)

/-! ### Claims -/

/-- C1 (amended): assuming no concurrent writers, every call of
`nextId()` that succeeds in reading the target backend's log (for the
remote backend: the fetch does not fail, so no local fallback occurs;
for the local backend: the `id` column, when present, parses wholly as
numbers) returns an integer strictly greater than every integer id
present in that log. -/
theorem next_menu_id_exceeds_log (g : Bool) (ws : Option (List RemoteRecord))
    (f : FetchOutcome) (l : LocalLogState)
    (hf : g = true → f = .ok)
    (hl : g = false → localIdColumnNumeric l = true) :
    ∀ i ∈ idsPresent g ws l, i < next_menu_id g ws f l := by
  intro i hi
  cases g with
  | false =>
    have hln := hl rfl
    show i < next_menu_id_local l
    rcases l with _ | _ | col
    · cases hi
    · cases hi
    · rcases col with n | vals | vals
      · cases hi
      · rcases vals with _ | ⟨v, vs⟩
        · cases hi
        · have hle : i ≤ vs.foldl max v := by
            rcases List.mem_cons.mp hi with h | h
            · subst h; exact le_foldl_max_init vs i
            · exact le_foldl_max_of_mem vs v h
          show i < vs.foldl max v + 1
          omega
      · exact absurd hln (by simp [localIdColumnNumeric])
  | true =>
    have hfo := hf rfl
    subst hfo
    rcases ws with _ | recs
    · cases hi
    · have hi2 : i ∈ recs.filterMap recIdValue := hi
      obtain ⟨r, hr, hv⟩ := List.mem_filterMap.mp hi2
      have hne : recs.isEmpty = false := by
        rcases recs with _ | _
        · cases hr
        · rfl
      have hgoal : next_menu_id true (some recs) .ok l = maxDigitId recs + 1 := by
        show (if recs.isEmpty = true then (1 : Int) else maxDigitId recs + 1)
            = maxDigitId recs + 1
        rw [hne]
        simp
      rw [hgoal]
      rcases recIdValue_le_zero_or_kept hv with h | h
      · have := maxDigitId_nonneg recs
        omega
      · have : i ≤ maxDigitId recs :=
          mem_kept_le_maxDigitId (List.mem_filterMap.mpr ⟨r, hr, h⟩)
        omega

/-- C1 witness: with the remote backend enabled, a successful fetch of
a worksheet whose only id is 3 yields an id greater than 3. -/
theorem next_menu_id_exceeds_log_witness :
    (3 : Int) < next_menu_id true (some [⟨some (.int 3)⟩]) .ok .noFile :=
  next_menu_id_exceeds_log true (some [⟨some (.int 3)⟩]) .ok .noFile
    (fun _ => rfl) (fun h => nomatch h) 3 (by decide)

/-- C1 counterexample: with the remote backend configured and the
remote worksheet containing id 5, a client failure makes `nextId()`
fall back to the (absent) local log and return 1, which is not greater
than the id 5 present in the target backend's log — refuting the claim
as stated. -/
theorem next_menu_id_exceeds_log_counterexample :
    next_menu_id true (some [⟨some (.int 5)⟩]) .clientError .noFile = 1 ∧
    (5 : Int) ∈ idsPresent true (some [⟨some (.int 5)⟩]) .noFile ∧
    ¬ ((5 : Int) < 1) := by decide

/-- C2: any failure while contacting the remote backend during
`nextId()` (client/auth failure before the worksheet lookup, or a
failure fetching the records) makes `next_menu_id_gsheets` return
exactly the local-backend computation; being a total function, it never
raises. -/
theorem nextid_remote_failure_falls_back (ws : Option (List RemoteRecord))
    (f : FetchOutcome) (l : LocalLogState) (h : remoteContactFails ws f) :
    next_menu_id_gsheets ws f l = next_menu_id_local l := by
  cases f with
  | ok => cases h
  | clientError => rfl
  | recordsError =>
    rcases ws with _ | recs
    · exact absurd rfl h
    · rfl

/-- C2 witness: a client failure with a populated worksheet and a local
log with max id 4 returns the local value 5. -/
theorem nextid_remote_failure_falls_back_witness :
    next_menu_id_gsheets (some [⟨some (.int 9)⟩]) .clientError
        (.table (.numeric [4]))
      = next_menu_id_local (.table (.numeric [4])) ∧
    next_menu_id_local (.table (.numeric [4])) = 5 :=
  ⟨nextid_remote_failure_falls_back (some [⟨some (.int 9)⟩]) .clientError
      (.table (.numeric [4])) trivial,
   by decide⟩

/-- C4 (amended): for the local backend, `nextId()` returns 1 when the
log file does not exist or cannot be read, when the `id` column is
absent, or when the log is empty; when the `id` column parses wholly as
numbers and `m` is its maximum, it returns `m + 1`.  (The behavior on a
column containing non-numeric text is string-based, see the
counterexample.) -/
theorem next_menu_id_local_cases :
    next_menu_id_local .noFile = 1 ∧
    next_menu_id_local .unreadable = 1 ∧
    (∀ n, next_menu_id_local (.table (.idAbsent n)) = 1) ∧
    next_menu_id_local (.table (.numeric [])) = 1 ∧
    next_menu_id_local (.table (.object [])) = 1 ∧
    (∀ (v : Int) (vs : List Int) (m : Int), m ∈ v :: vs →
      (∀ x ∈ v :: vs, x ≤ m) →
      next_menu_id_local (.table (.numeric (v :: vs))) = m + 1) :=
  ⟨rfl, rfl, fun _ => rfl, rfl, rfl,
   fun v vs m hm hb => next_local_numeric_max v vs m hm hb⟩

/-- C4 witness: a log with ids 3 and 7 yields 8. -/
theorem next_menu_id_local_cases_witness :
    next_menu_id_local (.table (.numeric [3, 7])) = 8 := by
  have h := next_menu_id_local_cases.2.2.2.2.2 3 [7] 7 (by decide) (by decide)
  simpa using h

/-- C3: every failure during a remote append surfaces to the user as an
error message carrying the underlying cause, the local log is left
untouched, and no fallback write to local storage happens (asymmetric
with `nextId`). -/
theorem remote_append_error_surfaces (p : List PrevRow) (now : String)
    (f : FetchOutcome) (eff : RemoteEff) (st : St) (e : StoreError)
    (ws2 : Option (List Entry))
    (hp : p ≠ [])
    (h : append_menu_to_gsheets eff st.remoteWs (savedRow true p now f st)
      = (some e, ws2)) :
    save_menu true p now f eff st
      = ({ st with remoteWs := ws2 }, .errorMsg e, [.readId true, .writeRow true]) ∧
    (save_menu true p now f eff st).1.localLog = st.localLog := by
  have hni : p.isEmpty = false := by
    rcases p with _ | _
    · exact absurd rfl hp
    · rfl
  have h1 : save_menu true p now f eff st
      = ({ st with remoteWs := ws2 }, .errorMsg e, [.readId true, .writeRow true]) := by
    unfold save_menu
    rw [hni]
    simp only [Bool.false_eq_true, if_false, if_true, h]
  exact ⟨h1, by rw [h1]⟩

/-- C3 witness: a client failure while saving a nonempty preview
remotely yields the error message with its cause and leaves both logs
unchanged. -/
theorem remote_append_error_surfaces_witness :
    save_menu true [⟨1, "X", ""⟩] "t" .ok ⟨false, true, true⟩ ⟨none, none⟩
      = (⟨none, none⟩, .errorMsg .clientFailure, [.readId true, .writeRow true]) :=
  (remote_append_error_surfaces [⟨1, "X", ""⟩] "t" .ok ⟨false, true, true⟩
    ⟨none, none⟩ .clientFailure none (by decide) (by decide)).1

/-- C5: saving with an empty preview is rejected with a user-facing
warning before any backend call (the emitted backend-call list is
empty) and leaves both backends' logs unchanged. -/
theorem empty_preview_rejected (g : Bool) (now : String) (f : FetchOutcome)
    (eff : RemoteEff) (st : St) :
    save_menu g [] now f eff st = (st, .warning, []) := rfl

/-- C4 counterexample: the `id` column `["100", "2x", "99"]` is
unparsable (it contains `"2x"`), yet `nextId()` returns 100 — neither 1
(as the claim's unparsable case demands) nor `max(existing ids) + 1 =
101`: pandas keeps the column as strings, `df["id"].max()` is the
lexicographically greatest cell `"99"`, and `int("99") + 1 = 100`. -/
theorem next_menu_id_local_unparsable_counterexample :
    next_menu_id_local (.table (.object ["100", "2x", "99"])) = 100 ∧
    idsPresentLocal (.table (.object ["100", "2x", "99"])) = [100, 99] ∧
    ¬ ((100 : Int) = 1) ∧ ¬ ((100 : Int) = 100 + 1) := by decide

theorem buildRows_names (choices : String → String) (cat : String → List CatRow) :
    ∀ (ks : List String) (c : Nat),
      (buildRows choices cat ks c).map PrevRow.name
        = (ks.filter (fun k => decide (choices k ≠ "" ∧ choices k ≠ "-"))).map
            choices := by
  intro ks
  induction ks with
  | nil => intro c; rfl
  | cons k ks ih =>
    intro c
    by_cases h : choices k ≠ "" ∧ choices k ≠ "-"
    · simp [buildRows, h, ih]
    · simp [buildRows, h, ih]

/-- C6: the preview contains exactly one row per category whose
selection differs from the sentinel, in the fixed order
`GROUP_KEYS_ORDER` (sentinel categories are omitted, never recorded as
empty), and the saved `dishes` string joins the chosen names with
`", "` in that same order.  The hypothesis `hne` says every selection
is a real option of the form's selectboxes: the sentinel `"-"` or a
non-null catalog name, never the empty string. -/
theorem build_preview_rows (choices : String → String)
    (cat : String → List CatRow) (hne : ∀ k, choices k ≠ "") :
    (build_preview choices cat).map PrevRow.name
      = (GROUP_KEYS_ORDER.filter (fun k => decide (choices k ≠ "-"))).map choices ∧
    menuDishes (build_preview choices cat)
      = ", ".intercalate
          ((GROUP_KEYS_ORDER.filter (fun k => decide (choices k ≠ "-"))).map
            choices) := by
  have h1 := buildRows_names choices cat GROUP_KEYS_ORDER 1
  have h2 : GROUP_KEYS_ORDER.filter
        (fun k => decide (choices k ≠ "" ∧ choices k ≠ "-"))
      = GROUP_KEYS_ORDER.filter (fun k => decide (choices k ≠ "-")) :=
    List.filter_congr (fun k _ =>
      decide_eq_decide.mpr ⟨fun h3 => h3.2, fun h3 => ⟨hne k, h3⟩⟩)
  rw [h2] at h1
  exact ⟨h1, by unfold menuDishes build_preview; rw [h1]⟩

/-- C6 witness: category A (`grains_and_pasta`) selected `"X"`,
category B (`baked_vegetables`) left at the sentinel, category C
(`potato_dishes`) selected `"Y"` — the preview is exactly two rows, A
then C, never B, and the dishes string is `"X, Y"`. -/
theorem build_preview_rows_witness :
    (build_preview
        (fun k => if k = "grains_and_pasta" then "X"
          else if k = "potato_dishes" then "Y" else "-")
        (fun _ => [])).map PrevRow.name = ["X", "Y"] ∧
    menuDishes (build_preview
        (fun k => if k = "grains_and_pasta" then "X"
          else if k = "potato_dishes" then "Y" else "-")
        (fun _ => [])) = "X, Y" := by
  have h := build_preview_rows
    (fun k => if k = "grains_and_pasta" then "X"
      else if k = "potato_dishes" then "Y" else "-")
    (fun _ => [])
    (by
      intro k
      by_cases h1 : k = "grains_and_pasta"
      · simp [h1]
      · by_cases h2 : k = "potato_dishes" <;> simp [h1, h2])
  exact ⟨h.1.trans (by decide), h.2.trans (by decide)⟩

/-- C7: appending `{id: 5, dishes: "Soup, Fish", at_date: "2024-01-01
12:00:00"}` to an absent local log and reading the CSV text back yields
exactly the header row plus one row equal to that entry (the comma in
`dishes` survives the quoting round-trip). -/
theorem append_roundtrip_example :
    readLogBack
        (append_menu_to_local_csv none ⟨5, "Soup, Fish", "2024-01-01 12:00:00"⟩)
      = some [["id", "dishes", "at_date"],
              ["5", "Soup, Fish", "2024-01-01 12:00:00"]] ∧
    decodeRow ["5", "Soup, Fish", "2024-01-01 12:00:00"]
      = some ⟨5, "Soup, Fish", "2024-01-01 12:00:00"⟩ := by decide

/-- The log file after `n` local appends with supplied ids `1..n`
(dishes and dates arbitrary), starting from an absent file. -/
def appendedSeq (ds ts : Nat → String) (n : Nat) : Option (List Entry) :=
  (List.range' 1 n).foldl
    (fun file i => append_menu_to_local_csv file ⟨Int.ofNat i, ds i, ts i⟩) none

theorem foldl_append_from_some (ds ts : Nat → String) :
    ∀ (l : List Nat) (rows : List Entry),
      l.foldl (fun file i =>
          append_menu_to_local_csv file ⟨Int.ofNat i, ds i, ts i⟩) (some rows)
        = some (rows ++ l.map (fun i => ⟨Int.ofNat i, ds i, ts i⟩)) := by
  intro l
  induction l with
  | nil => intro rows; simp
  | cons a l ih =>
    intro rows
    rw [List.foldl_cons]
    rw [show append_menu_to_local_csv (some rows) ⟨Int.ofNat a, ds a, ts a⟩
        = some (rows ++ [⟨Int.ofNat a, ds a, ts a⟩]) from rfl]
    rw [ih]
    simp

theorem appendedSeq_eq (ds ts : Nat → String) (n : Nat) :
    appendedSeq ds ts n
      = if n = 0 then none
        else some ((List.range' 1 n).map (fun i => ⟨Int.ofNat i, ds i, ts i⟩)) := by
  rcases n with _ | n
  · rfl
  · unfold appendedSeq
    rw [List.range'_succ]
    simp only [List.foldl_cons, List.map_cons]
    rw [show append_menu_to_local_csv none
        ⟨Int.ofNat 1, ds 1, ts 1⟩ = some [⟨Int.ofNat 1, ds 1, ts 1⟩] from rfl]
    rw [foldl_append_from_some]
    simp

/-- C8: after `n` local appends with strictly increasing supplied ids
`1..n` starting from an absent log, a subsequent local `nextId()`
returns `n + 1`. -/
theorem sequential_appends_next_id (n : Nat) (ds ts : Nat → String) :
    next_menu_id_local (fileToState (appendedSeq ds ts n)) = Int.ofNat n + 1 := by
  rcases n with _ | n
  · rfl
  · rw [appendedSeq_eq]
    simp only [Nat.succ_ne_zero, if_false]
    have hids : ((List.range' 1 (n + 1)).map
          (fun i => (⟨Int.ofNat i, ds i, ts i⟩ : Entry))).map Entry.id
        = (List.range' 1 (n + 1)).map Int.ofNat := by
      rw [List.map_map]; rfl
    rw [show fileToState (some ((List.range' 1 (n + 1)).map
          (fun i => (⟨Int.ofNat i, ds i, ts i⟩ : Entry))))
        = .table (.numeric (((List.range' 1 (n + 1)).map
          (fun i => (⟨Int.ofNat i, ds i, ts i⟩ : Entry))).map Entry.id)) from rfl]
    rw [hids]
    rw [List.range'_succ, List.map_cons]
    apply next_local_numeric_max
    · rw [← List.map_cons, ← List.range'_succ]
      exact List.mem_map.mpr
        ⟨n + 1, List.mem_range'_1.mpr ⟨by omega, by omega⟩, rfl⟩
    · intro x hx
      rw [← List.map_cons, ← List.range'_succ] at hx
      obtain ⟨i, hi, rfl⟩ := List.mem_map.mp hx
      have := (List.mem_range'_1.mp hi).2
      simp only [Int.ofNat_eq_coe]
      omega

def rowsOf (o : Option (List Entry)) : List Entry := o.getD []

/-- C9: a local append to an existing log keeps every stored row, in
order, and adds exactly one row at the end; and `save_menu` — the only
operation that writes — never mutates or deletes a stored entry on
either backend: its resulting logs extend the prior logs by at most one
row. -/
theorem save_preserves_log (g : Bool) (p : List PrevRow) (now : String)
    (f : FetchOutcome) (eff : RemoteEff) (st : St) :
    (∀ (rows : List Entry) (e : Entry),
      append_menu_to_local_csv (some rows) e = some (rows ++ [e])) ∧
    ∃ s1 s2 : List Entry,
      rowsOf (save_menu g p now f eff st).1.localLog = rowsOf st.localLog ++ s1 ∧
      s1.length ≤ 1 ∧
      rowsOf (save_menu g p now f eff st).1.remoteWs = rowsOf st.remoteWs ++ s2 ∧
      s2.length ≤ 1 := by
  refine ⟨fun rows e => rfl, ?_⟩
  by_cases hp : p.isEmpty
  · exact ⟨[], [], by simp [save_menu, hp], by simp, by simp [save_menu, hp], by simp⟩
  · have hni : p.isEmpty = false := by
      rcases hb : p.isEmpty with _ | _
      · rfl
      · exact absurd hb hp
    rcases g with _ | _
    · -- local branch
      refine ⟨[savedRow false p now f st], [], ?_, by simp, ?_, by simp⟩
      · rcases hll : st.localLog with _ | rows <;>
          simp [save_menu, hni, append_menu_to_local_csv, hll, rowsOf]
      · simp [save_menu, hni, rowsOf]
    · -- remote branch
      rcases eff with ⟨co, cr, ap⟩
      rcases co with _ | _
      · exact ⟨[], [], by simp [save_menu, hni, append_menu_to_gsheets, rowsOf],
          by simp, by simp [save_menu, hni, append_menu_to_gsheets, rowsOf], by simp⟩
      · rcases hws : st.remoteWs with _ | rows
        · rcases cr with _ | _
          · exact ⟨[], [], by simp [save_menu, hni, append_menu_to_gsheets, hws, rowsOf],
              by simp, by simp [save_menu, hni, append_menu_to_gsheets, hws, rowsOf],
              by simp⟩
          · rcases ap with _ | _
            · exact ⟨[], [],
                by simp [save_menu, hni, append_menu_to_gsheets, hws, rowsOf],
                by simp,
                by simp [save_menu, hni, append_menu_to_gsheets, hws, rowsOf],
                by simp⟩
            · exact ⟨[], [savedRow true p now f st],
                by simp [save_menu, hni, append_menu_to_gsheets, hws, rowsOf],
                by simp,
                by simp [save_menu, hni, append_menu_to_gsheets, hws, rowsOf],
                by simp⟩
        · rcases ap with _ | _
          · exact ⟨[], [],
              by simp [save_menu, hni, append_menu_to_gsheets, hws, rowsOf],
              by simp,
              by simp [save_menu, hni, append_menu_to_gsheets, hws, rowsOf],
              by simp⟩
          · exact ⟨[], [savedRow true p now f st],
              by simp [save_menu, hni, append_menu_to_gsheets, hws, rowsOf],
              by simp,
              by simp [save_menu, hni, append_menu_to_gsheets, hws, rowsOf],
              by simp⟩

theorem buildRows_no_sentinel (choices : String → String)
    (cat : String → List CatRow) :
    ∀ (ks : List String) (c : Nat) (r : PrevRow),
      r ∈ buildRows choices cat ks c → r.name ≠ "-" := by
  intro ks
  induction ks with
  | nil => intro c r h; cases h
  | cons k ks ih =>
    intro c r h
    by_cases hc : choices k ≠ "" ∧ choices k ≠ "-"
    · rw [show buildRows choices cat (k :: ks) c
          = if choices k ≠ "" ∧ choices k ≠ "-" then
              ⟨c, choices k, lookupNotes cat k (choices k)⟩
                :: buildRows choices cat ks (c + 1)
            else buildRows choices cat ks c from rfl, if_pos hc] at h
      rcases List.mem_cons.mp h with h2 | h2
      · rw [h2]; exact hc.2
      · exact ih (c + 1) r h2
    · rw [show buildRows choices cat (k :: ks) c
          = if choices k ≠ "" ∧ choices k ≠ "-" then
              ⟨c, choices k, lookupNotes cat k (choices k)⟩
                :: buildRows choices cat ks (c + 1)
            else buildRows choices cat ks c from rfl, if_neg hc] at h
      exact ih c r h

/-- C10: no row of a built preview ever carries the sentinel `"-"` as
its dish name — a catalog dish whose display name is literally `"-"` is
indistinguishable from "no selection" and can never reach the preview
(hence never the log). -/
theorem preview_never_sentinel (choices : String → String)
    (cat : String → List CatRow) :
    ∀ r ∈ build_preview choices cat, r.name ≠ "-" :=
  fun r hr => buildRows_no_sentinel choices cat GROUP_KEYS_ORDER 1 r hr

/-- C10 witness: a catalog whose only dish is named `"-"` together with
the selection `"Soup"` in another category — the produced row is not
the sentinel, and selecting `"-"` itself produces nothing. -/
theorem preview_never_sentinel_witness :
    (⟨1, "Soup", ""⟩ : PrevRow) ∈ build_preview
        (fun k => if k = "soups" then "Soup" else "-") (fun _ => [⟨"-", none⟩]) ∧
    PrevRow.name ⟨1, "Soup", ""⟩ ≠ "-" :=
  ⟨by decide,
   preview_never_sentinel (fun k => if k = "soups" then "Soup" else "-")
     (fun _ => [⟨"-", none⟩]) ⟨1, "Soup", ""⟩ (by decide)⟩

end GolanMenu
